import Mathlib

/-!
# Verification of the HKJC racing prediction and scoring engine

Shallow embedding of the core prediction and scoring engine of the
`hkjc-racing-analysis` repository:

* `src/analyzers/leg_fitness_scorer_realtime.py` — `RealtimeLegFitnessScorer`
  (six-dimension composite fitness scoring with a hybrid personal/population
  barrier dimension and a race-mismatch guard);
* `src/analyzers/pace_predictor.py` — `PacePredictor` (field pace distribution
  diagnostic, EPP pressure estimator, confidence-weighted fusion);
* `src/analyzers/runstyle_predictor.py` — `RunstylePredictor` (running-style
  confidence calculus).

Modelling conventions:

* Python numbers are modelled exactly as rationals (`ℚ`); quantities that the
  source derives via `numpy` square roots (standard deviations, Euclidean
  distances) live in `ℝ` as `Real.sqrt` of a rational variance.
* Record fields that the source cleans with `clean_int_field` are modelled as
  `Option ℤ` (absent value versus a supplied integer); the source additionally
  parses string-typed fields ("DH1", "WV", …) to integers before the logic
  modelled here runs — no claim concerns that textual parsing, so the
  embedding takes the post-parse integer (or absent) value as input.
* The source rounds values to 3 decimals purely for display in its returned
  `details` dictionaries; the embedding keeps the unrounded values that the
  source actually computes with.
-/

set_option maxHeartbeats 1000000

/-- Embedding of `clean_int_field` of `RealtimeLegFitnessScorer.calculate_scores`, on the
integer-or-absent fragment of its input domain: an absent value degrades to
the worst-case sentinel `99` (`default_invalid`); an integer passes through
unchanged. -/
def clean_int_field : Option ℤ → ℤ
  | none => 99
  | some z => z

/-- A raw per-start history record as supplied to `calculate_scores`
(`racing_history` entries), before type cleaning. -/
structure RawRec where
  position : Option ℤ := none
  barrier : Option ℤ := none
  distance : Option ℤ := none
  winningDistance : Option ℚ := none
  condition : String := ""
  deriving Repr, DecidableEq

/-- A history record after the `calculate_scores` cleaning pass: the
`position`, `barrier` and `distance` fields are guaranteed integers. -/
structure CleanRec where
  position : ℤ := 99
  barrier : ℤ := 99
  distance : ℤ := 99
  winningDistance : Option ℚ := none
  condition : String := ""
  deriving Repr, DecidableEq

/-- The per-record cleaning performed by `calculate_scores` on
`racing_history` (`cleaned_record['barrier'|'distance'|'position'] = clean_int_field …`). -/
def cleanRec (r : RawRec) : CleanRec :=
  { position := clean_int_field r.position
    barrier := clean_int_field r.barrier
    distance := clean_int_field r.distance
    winningDistance := r.winningDistance
    condition := r.condition }

/-- The `race_info` dictionary as passed to `calculate_scores` (current-race parameters). -/
structure RaceInfo where
  raceNum : Option ℤ := none
  barrier : Option ℤ := none
  distance : Option ℤ := none
  going : Option String := none
  deriving Repr, DecidableEq

/-- One per-draw population entry of the `draw_statistics` dictionary
(`{'draw': …, 'top3_rate': …, 'races_run': …}`). -/
structure StatEntry where
  top3Rate : ℚ := 0
  racesRun : ℚ := 0
  deriving Repr, DecidableEq

/-- The `draw_statistics` dictionary: optional `'_race_num'` metadata plus a
finite map from draw numbers to population entries. -/
structure DrawStats where
  raceNum : Option ℤ := none
  entries : List (ℤ × StatEntry) := []
  deriving Repr, DecidableEq

/-- Dictionary lookup `draw_statistics[target_barrier]` (first binding wins,
as in a Python dict with distinct keys). -/
def findEntry : List (ℤ × StatEntry) → ℤ → Option StatEntry
  | [], _ => none
  | (k, e) :: rest, b => if k = b then some e else findEntry rest b

/-- Number of wins (`position == 1`) in a record list. -/
def winsOf (h : List CleanRec) : ℕ :=
  h.countP fun r => decide (r.position = 1)

/-- Number of placings (`position <= 3`; a win also counts, exactly as the
source's `if pos == 1: places += 1 / elif pos <= 3: places += 1`). -/
def placesOf (h : List CleanRec) : ℕ :=
  h.countP fun r => decide (r.position ≤ 3)

/-- The diagnostic fields of `_calculate_barrier_score_hybrid`'s `details`
dictionary that the analysis needs (sample count, personal score and weight,
population score, final score). -/
structure BarrierDetails where
  nPersonal : ℕ
  personalScore : Option ℚ
  personalWeight : ℚ
  statScore : ℚ
  finalScore : ℚ
  deriving Repr, DecidableEq

/-- The personal same-draw sample list of `_calculate_barrier_score_hybrid`:
records whose (truthy) barrier equals the target barrier. -/
def barrierRaces (h : List CleanRec) (target : ℤ) : List CleanRec :=
  h.filter fun r => decide (r.barrier ≠ 0 ∧ r.barrier = target)

/-- Embedding of `RealtimeLegFitnessScorer._calculate_barrier_score_hybrid`: hybrid
personal/population barrier-adaptation score.  Returns the clamped score and,
on the non-degenerate path, the diagnostic details. -/
def calcBarrierScoreHybrid (h : List CleanRec) (barrier : ℤ)
    (stats : Option DrawStats) : ℚ × Option BarrierDetails :=
  if barrier = 0 then (1/2, none)
  else
    let races := barrierRaces h barrier
    let n := races.length
    let wins := winsOf races
    let places := placesOf races
    let personalScore : Option ℚ :=
      if 3 ≤ n then some ((wins / n : ℚ) * 0.6 + (places / n : ℚ) * 0.4)
      else none
    let personalWeight : ℚ :=
      if 3 ≤ n then (if 8 ≤ n then 0.8 else 0.3 + ((n : ℚ) - 3) * 0.1)
      else 0
    let statScore : ℚ :=
      match stats with
      | some s =>
        match findEntry s.entries barrier with
        | some e =>
          let base := e.top3Rate / 100 * 0.6 + 0.35
          if e.racesRun < 20 then
            base * (e.racesRun / 20) + 0.5 * (1 - e.racesRun / 20)
          else base
        | none => 0.5
      | none => 0.5
    let blended : ℚ :=
      match personalScore with
      | some ps => personalWeight * ps + (1 - personalWeight) * statScore
      | none => statScore
    let final := max 0 (min 1 blended)
    (final, some ⟨n, personalScore, personalWeight, statScore, final⟩)

/-- The mean used by `numpy` (`np.mean`); on the empty list the embedding's
rational division by zero yields `0` (the source never reaches that case on
the branches modelled below). -/
def npMean (xs : List ℚ) : ℚ := xs.sum / xs.length

/-- Population variance as used by `np.std` (mean of squared deviations). -/
def npVar (xs : List ℚ) : ℚ :=
  (xs.map fun x => (x - npMean xs) ^ 2).sum / xs.length

/-- Embedding of `np.std`: square root of the population variance. -/
noncomputable def npStd (xs : List ℚ) : ℝ := Real.sqrt (npVar xs)

/-- The `winning_distance` values of the most recent five records, as gathered
by `_calculate_distance_stability` (`record.get('winning_distance', 0)`; an
absent field contributes `0`). -/
def recentWinningDistances (h : List CleanRec) : List ℚ :=
  (h.take 5).map fun r => r.winningDistance.getD 0

/-- Embedding of `RealtimeLegFitnessScorer._calculate_distance_stability`: inverse
volatility of the recent finishing margins, `max(0, 1 - std/10)` capped at 1. -/
noncomputable def calcDistanceStability (h : List CleanRec) : ℝ :=
  if h.length < 3 then 0.5
  else
    let ds := recentWinningDistances h
    if ds = [] then 0.5
    else min 1 (max 0 (1 - npStd ds / 10))

/-- The `wins / places` quotient of `_calculate_stability_score` (the win/place ratio;
`0` when there are no placings). -/
def winOverPlaces (h : List CleanRec) : ℚ :=
  if 0 < placesOf h then (winsOf h : ℚ) / placesOf h else 0

/-- Embedding of `RealtimeLegFitnessScorer._calculate_stability_score`: `ratio * 0.7 +
distance_stability * 0.3`, clamped to `[0, 1]`; `0.5` on an empty history. -/
noncomputable def calcStabilityScore (h : List CleanRec) : ℝ :=
  if h = [] then 0.5
  else min 1 (max 0 ((winOverPlaces h : ℝ) * 0.7 + calcDistanceStability h * 0.3))

/-- The trend ratio of `_calculate_trend_score`: recent (last 5) placement
rate over lifetime placement rate (`1` when the lifetime rate is zero but the
recent rate positive, `0.5` when both are zero). -/
def trendFactorOf (h : List CleanRec) : ℚ :=
  let totalRaces := h.length
  let overallRate : ℚ := (placesOf h : ℚ) / totalRaces
  let recentRaces := min 5 totalRaces
  let recentRate : ℚ := (placesOf (h.take recentRaces) : ℚ) / recentRaces
  if 0 < overallRate then recentRate / overallRate
  else if 0 < recentRate then 1 else 0.5

/-- The three non-linear trend bands of `_calculate_trend_score`: rising
(ratio > 1.2, compressed bonus), falling (ratio < 0.8, direct scaling),
stable (fixed 0.7). -/
def trendBand (tf : ℚ) : ℚ :=
  if 1.2 < tf then min 1 (0.7 + (tf - 1) * 0.5)
  else if tf < 0.8 then tf * 0.7
  else 0.7

/-- Embedding of `RealtimeLegFitnessScorer._calculate_trend_score`: recent (last 5)
placement rate over lifetime placement rate, mapped through three bands. -/
def calcTrendScore (h : List CleanRec) : ℚ :=
  if h = [] then 0.5 else trendBand (trendFactorOf h)

/-- Embedding of `RealtimeLegFitnessScorer._calculate_consistency_score`: `1 - stddev/10`
of the valid (non-sentinel) finishing positions, clamped to `[0, 1]`. -/
noncomputable def calcConsistencyScore (h : List CleanRec) : ℝ :=
  if h = [] then 0.5
  else
    let ps : List ℤ := h.map fun r => r.position
    if ps.all fun p => p = 99 then 0.5
    else
      let valid : List ℤ := ps.filter fun p => decide (p ≠ 99)
      if valid.length < 2 then 0.5
      else min 1 (max 0 (1 - npStd (valid.map fun z => (z : ℚ)) / 10))

/-- Embedding of `RealtimeLegFitnessScorer._calculate_distance_score`: placement rate over
history within ±100 of the target distance, `rate * 0.8 + 0.2`, clamped. -/
def calcDistanceScore (h : List CleanRec) (target : ℤ) : ℚ :=
  if h = [] ∨ target = 0 then 0.5
  else
    let near := h.filter fun r => decide (r.distance ≠ 0 ∧ |r.distance - target| ≤ 100)
    if near = [] then 0.5
    else min 1 (max 0 ((placesOf near : ℚ) / near.length * 0.8 + 0.2))

/-- The going-text normalization of `_calculate_going_score`
(`.replace('地','').strip().lower()`). -/
def normGoing (s : String) : String := ((s.replace "地" "").trim).toLower

/-- Python's substring test `a in b` on the normalized going strings. -/
def strIn (a b : String) : Prop := a.data <:+: b.data

instance (a b : String) : Decidable (strIn a b) :=
  inferInstanceAs (Decidable (a.data <:+: b.data))

/-- Embedding of `RealtimeLegFitnessScorer._calculate_going_score`: placement rate over
records whose normalized `condition` partially matches the normalized target
going, `rate * 0.7 + 0.3`, clamped; neutral `0.5` when information is
missing. -/
def calcGoingScore (h : List CleanRec) (going : Option String) : ℚ :=
  match going with
  | none => 0.5
  | some g =>
    if h = [] ∨ g = "" then 0.5
    else
      let tg := normGoing g
      let goingRaces := h.filter fun r =>
        decide (strIn tg (normGoing r.condition) ∨ strIn (normGoing r.condition) tg)
      if goingRaces = [] then 0.5
      else min 1 (max 0 ((placesOf goingRaces : ℚ) / goingRaces.length * 0.7 + 0.3))

/-- Embedding of `RealtimeLegFitnessScorer._calculate_grade`: six-level grade ladder. -/
noncomputable def calcGrade (score : ℝ) : String :=
  if 0.85 ≤ score then "A"
  else if 0.75 ≤ score then "A-"
  else if 0.65 ≤ score then "B+"
  else if 0.55 ≤ score then "B"
  else if 0.45 ≤ score then "B-"
  else "C"

/-- The six dimension weights of the realtime profile, in the order barrier,
distance, going, stability, trend, consistency — the coefficients of the
weighted total in `calculate_scores`. -/
def dimensionWeights : List ℚ := [0.20, 0.20, 0.10, 0.25, 0.15, 0.10]

/-- The anti-contamination check of `calculate_scores`: fails exactly when a
statistics dictionary is supplied, it carries `'_race_num'` metadata, the
(cleaned) expected race number is truthy (nonzero), and the two disagree. -/
def raceMismatch (expected : ℤ) (stats : Option DrawStats) : Bool :=
  match stats with
  | none => false
  | some s =>
    match s.raceNum with
    | none => false
    | some actual => decide (expected ≠ 0) && decide (expected ≠ actual)

/-- The error message raised on a race mismatch (the source raises
`ValueError` with a formatted message; the embedding uses a fixed tag). -/
def raceMismatchMsg : String := "draw statistics race number mismatch"

/-- The result dictionary of `calculate_scores`: the six dimension scores,
the weighted total, the grade and the wall-clock timestamp. -/
structure ScoreOutput where
  barrier : ℝ
  distance : ℝ
  going : ℝ
  stability : ℝ
  trend : ℝ
  consistency : ℝ
  totalScore : ℝ
  grade : String
  timestamp : String

/-- Embedding of `RealtimeLegFitnessScorer.calculate_scores`.  The ambient wall clock
(`datetime.now().isoformat()`) is made explicit as the `now` argument; a
raised `ValueError` is an `Except.error`.  The embedding assumes a non-empty
`race_info` mapping (the source's `if race_info:` truthiness guard), which
every call site of the repository satisfies. -/
noncomputable def calculateScores (history : List RawRec) (ri : RaceInfo)
    (stats : Option DrawStats) (now : String) : Except String ScoreOutput :=
  if raceMismatch (clean_int_field ri.raceNum) stats then .error raceMismatchMsg
  else
    let h := history.map cleanRec
    let barrier := clean_int_field ri.barrier
    let distance := clean_int_field ri.distance
    let b : ℚ := (calcBarrierScoreHybrid h barrier stats).1
    let d : ℚ := calcDistanceScore h distance
    let g : ℚ := calcGoingScore h ri.going
    let st : ℝ := calcStabilityScore h
    let tr : ℚ := calcTrendScore h
    let co : ℝ := calcConsistencyScore h
    let total : ℝ :=
      (b : ℝ) * 0.20 + (d : ℝ) * 0.20 + (g : ℝ) * 0.10 + st * 0.25 +
        (tr : ℝ) * 0.15 + co * 0.10
    .ok ⟨(b : ℝ), (d : ℝ), (g : ℝ), st, (tr : ℝ), co, total, calcGrade total, now⟩

/-- The five pace archetypes of `PacePredictor` (dictionary keys of
`pace_templates`, in insertion order `FAST, MODERATELY_FAST, NORMAL,
MODERATELY_SLOW, SLOW`). -/
inductive PaceType where
  | SLOW
  | MODERATELY_SLOW
  | NORMAL
  | MODERATELY_FAST
  | FAST
  deriving Repr, DecidableEq

/-- The `FRONT`/`MID`/`BACK` target triple of each `pace_templates` entry
(calibrated to a 12-competitor field). -/
def templateOf : PaceType → ℚ × ℚ × ℚ
  | .FAST => (6.5, 3.5, 1.5)
  | .MODERATELY_FAST => (4.5, 4.5, 2.5)
  | .NORMAL => (3.5, 5.5, 2.5)
  | .MODERATELY_SLOW => (2.5, 4.5, 4.5)
  | .SLOW => (1.5, 3.5, 6.5)

/-- Iteration order of the `pace_templates` dictionary. -/
def templateOrder : List PaceType :=
  [.FAST, .MODERATELY_FAST, .NORMAL, .MODERATELY_SLOW, .SLOW]

/-- A per-competitor prediction record as consumed by `PacePredictor`
(`running_style` for the distribution method, `adjusted_position` and `draw`
for the EPP method). -/
structure PacePred where
  runningStyle : Option String := none
  adjustedPosition : Option ℚ := none
  draw : Option ℤ := none
  deriving Repr, DecidableEq

/-- Style lookup `pred.get('running_style', 'MID')`. -/
def styleOf (p : PacePred) : String := p.runningStyle.getD "MID"

/-- The style counts of `PacePredictor.get_runstyle_distribution` (labels
other than the three known ones are dropped). -/
structure Distribution where
  front : ℕ
  mid : ℕ
  back : ℕ
  deriving Repr, DecidableEq

/-- Embedding of `PacePredictor.get_runstyle_distribution`. -/
def getRunstyleDistribution (preds : List PacePred) : Distribution :=
  { front := preds.countP fun p => decide (styleOf p = "FRONT")
    mid := preds.countP fun p => decide (styleOf p = "MID")
    back := preds.countP fun p => decide (styleOf p = "BACK") }

/-- The `distribution['total']` entry (sum of the three counts). -/
def Distribution.total (d : Distribution) : ℕ := d.front + d.mid + d.back

/-- Embedding of `PacePredictor.calculate_distance_to_template`: Euclidean distance from
the actual counts, scaled to the 12-competitor basis, to a template triple. -/
noncomputable def distanceToTemplate (d : Distribution) (t : ℚ × ℚ × ℚ) : ℝ :=
  let scale : ℚ := if 0 < d.total then 12 / d.total else 1
  Real.sqrt (((d.front * scale - t.1 : ℚ) : ℝ) ^ 2 +
    ((d.mid * scale - t.2.1 : ℚ) : ℝ) ^ 2 + ((d.back * scale - t.2.2 : ℚ) : ℝ) ^ 2)

/-- Selection `min(distances, key=distances.get)`: the first pair (in dictionary
iteration order) attaining the minimal distance. -/
noncomputable def pickBest : List (PaceType × ℝ) → PaceType × ℝ
  | [] => (.NORMAL, 0)
  | x :: rest => rest.foldl (fun best p => if p.2 < best.2 then p else best) x

/-- Minimum of a list of reals (`sorted(...)[0]`); `0` on the empty list. -/
noncomputable def listMinR : List ℝ → ℝ
  | [] => 0
  | x :: rest => rest.foldl min x

/-- Removal of the first occurrence of a value from a list of reals, used to
express `sorted(...)[1]` as the minimum of the remaining multiset. -/
noncomputable def removeFirst : List ℝ → ℝ → List ℝ
  | [], _ => []
  | x :: r, a => if x = a then r else x :: removeFirst r a

/-- The part of `predict_pace_diagnostic`'s result dictionary relevant here:
the selected archetype, the confidence, and the per-archetype distances. -/
structure DiagOut where
  paceType : PaceType
  confidence : ℝ
  distances : List (PaceType × ℝ)

/-- Embedding of `PacePredictor.predict_pace_diagnostic`: match the field distribution
against the five archetype templates, select the nearest, and derive a
confidence `clamp(100 - minDistance/6*100, 0, 100)`, discounted by 20% when
the second-best distance is within `0.5` of the best. -/
noncomputable def predictPaceDiagnostic (preds : List PacePred) : DiagOut :=
  let d := getRunstyleDistribution preds
  if d.total = 0 then ⟨.NORMAL, 0, []⟩
  else
    let pairs := templateOrder.map fun pt => (pt, distanceToTemplate d (templateOf pt))
    let best := pickBest pairs
    let minDistance := best.2
    let conf0 : ℝ := max 0 (min 100 (100 - minDistance / 6 * 100))
    let values := pairs.map fun p => p.2
    let conf : ℝ :=
      if 2 ≤ values.length then
        let second := listMinR (removeFirst values (listMinR values))
        if second - minDistance < 0.5 then conf0 * 0.8 else conf0
      else conf0
    ⟨best.1, conf, pairs⟩

/-- The result triple of `PacePredictor.predict_pace_by_epp` (pace type, raw
EPP index as `pace_value`, band confidence). -/
structure EppOut where
  paceType : PaceType
  paceValue : ℚ
  confidence : ℚ
  deriving Repr, DecidableEq

/-- The weighted front-pressure contribution of one prediction: a competitor
whose adjusted position is at or below the front threshold contributes `1.5`
when its draw is `≥ 9`, else `1.0`; others (or records without an adjusted
position) contribute nothing. -/
def eppContribution (threshold : ℚ) (p : PacePred) : ℚ :=
  match p.adjustedPosition with
  | none => 0
  | some ap =>
    if ap ≤ threshold then (if 9 ≤ p.draw.getD 6 then 1.5 else 1.0) else 0

/-- Embedding of `PacePredictor.predict_pace_by_epp`: sum the weighted front-pressure
contributions (threshold `total_horses/3`) and classify the index through the
fixed bands `≤2.0 / ≤3.2 / ≤4.5 / ≤5.8 / else`. -/
def predictPaceByEpp (preds : List PacePred) (totalHorses : ℕ) : EppOut :=
  if preds = [] then ⟨.NORMAL, 2.0, 0⟩
  else
    let threshold : ℚ := (totalHorses : ℚ) / 3
    let epp : ℚ := (preds.map (eppContribution threshold)).sum
    if epp ≤ 2.0 then ⟨.SLOW, epp, 75⟩
    else if epp ≤ 3.2 then ⟨.MODERATELY_SLOW, epp, 75⟩
    else if epp ≤ 4.5 then ⟨.NORMAL, epp, 80⟩
    else if epp ≤ 5.8 then ⟨.MODERATELY_FAST, epp, 75⟩
    else ⟨.FAST, epp, 70⟩

/-- Embedding of `PacePredictor._pace_type_to_value`: ordinal value (1.0 to 3.0) of a pace
type, used for fusion. -/
def paceTypeToValue : PaceType → ℚ
  | .SLOW => 1.0
  | .MODERATELY_SLOW => 1.5
  | .NORMAL => 2.0
  | .MODERATELY_FAST => 2.5
  | .FAST => 3.0

/-- Embedding of `PacePredictor._value_to_pace_type`: nearest categorical band of a
numeric pace value. -/
noncomputable def valueToPaceType (v : ℝ) : PaceType :=
  if v ≤ 1.25 then .SLOW
  else if v ≤ 1.75 then .MODERATELY_SLOW
  else if v ≤ 2.25 then .NORMAL
  else if v ≤ 2.75 then .MODERATELY_FAST
  else .FAST

/-- The fusion-relevant fields of
`predict_pace_hybrid_v1_confidence_weighted`'s result dictionary. -/
structure FusionOut where
  paceType : PaceType
  confidence : ℝ
  paceValueFusion : ℝ
  wTraditional : ℝ
  wEpp : ℝ
  divergence : ℝ
  timestamp : String

/-- Embedding of `PacePredictor.predict_pace_hybrid_v1_confidence_weighted`: blend the
distribution diagnostic (mapped to its 1.0–3.0 ordinal) with the EPP result's
`pace_value` (the raw pressure index, as the source does), weighting each by
its own confidence, then map the blend back to a categorical band and derive
a fused confidence from the divergence of the two blended values.  The
wall clock is the explicit `now` argument; the empty-predictions early return
carries no timestamp in the source, modelled as `""`. -/
noncomputable def predictPaceHybridV1 (preds : List PacePred) (totalHorses : ℕ)
    (now : String) : FusionOut :=
  if preds = [] then ⟨.NORMAL, 0, 0, 0, 0, 0, ""⟩
  else
    let trad := predictPaceDiagnostic preds
    let confT : ℝ := trad.confidence
    let valT : ℝ := (paceTypeToValue trad.paceType : ℚ)
    let eppR := predictPaceByEpp preds totalHorses
    let confE : ℝ := (eppR.confidence : ℚ)
    let valE : ℝ := (eppR.paceValue : ℚ)
    let totalConf := confT + confE
    let wT : ℝ := if 0 < totalConf then confT / totalConf else 0.5
    let wE : ℝ := if 0 < totalConf then confE / totalConf else 0.5
    let fused := wT * valT + wE * valE
    let ptFusion := valueToPaceType fused
    let divergence := |valT - valE|
    let confFusion : ℝ :=
      if divergence < 0.5 then min 95 ((confT + confE) / 2 * 1.2)
      else if divergence < 1 then (confT + confE) / 2
      else (confT + confE) / 2 * 0.8
    ⟨ptFusion, confFusion, fused, wT, wE, divergence, now⟩

/-- The base confidence of `RunstylePredictor._calculate_confidence`,
determined by the number of distance-filtered history entries. -/
def baseConfidence (filteredCount : ℕ) : ℚ :=
  if 6 ≤ filteredCount then 85
  else if 4 ≤ filteredCount then 75
  else if 3 ≤ filteredCount then 65
  else 50

/-- Embedding of `RunstylePredictor._calculate_confidence`: base minus a stability penalty
from the standard deviation of the valid early positions; with one position
or fewer the source applies a flat `-10` penalty instead; result clamped to
`[0, 100]`. -/
noncomputable def calcRunstyleConfidence (positions : List ℤ) (filteredCount : ℕ) : ℝ :=
  let base : ℝ := (baseConfidence filteredCount : ℚ)
  let penalty : ℝ :=
    if 1 < positions.length then
      let sd := npStd (positions.map fun z => (z : ℚ))
      if 3 < sd then -15 else if 2 < sd then -10 else if 1.5 < sd then -5 else 0
    else -10
  max 0 (min 100 (base + penalty))

/-- Modelled from the spec (claim C7's sentence): the classifier confidence
as the spec states it — base from the filtered-entry count minus a stability
penalty determined solely by the standard deviation of the valid early
positions, clamped to `[0, 100]`, with no special case for a single
position. -/
noncomputable def specRunstyleConfidence (positions : List ℤ) (filteredCount : ℕ) : ℝ :=
  let base : ℝ := (baseConfidence filteredCount : ℚ)
  let sd := npStd (positions.map fun z => (z : ℚ))
  let penalty : ℝ := if 3 < sd then -15 else if 2 < sd then -10 else if 1.5 < sd then -5 else 0
  max 0 (min 100 (base + penalty))

/-- C10: the pace-type/ordinal-value conversion pair is a round trip — for
each of the five pace types, `_pace_type_to_value` followed by
`_value_to_pace_type` returns the original type. -/
theorem c10_pace_value_roundtrip :
    ∀ t : PaceType, valueToPaceType ((paceTypeToValue t : ℚ) : ℝ) = t := by
  intro t
  cases t <;> norm_num [valueToPaceType, paceTypeToValue]

/-- C5: in the hybrid barrier dimension the personal weight follows the
sample-count schedule: `0.8` for at least 8 personal same-draw samples,
`0.3 + (n - 3) * 0.1` for 3–7 samples, and `0` (population-only scoring)
below 3 samples. -/
theorem c5_personal_weight_schedule (h : List CleanRec) (b : ℤ)
    (stats : Option DrawStats) (d : BarrierDetails)
    (hd : (calcBarrierScoreHybrid h b stats).2 = some d) :
    (8 ≤ d.nPersonal → d.personalWeight = 0.8) ∧
    (3 ≤ d.nPersonal → d.nPersonal ≤ 7 →
      d.personalWeight = 0.3 + ((d.nPersonal : ℚ) - 3) * 0.1) ∧
    (d.nPersonal < 3 → d.personalWeight = 0) := by
  unfold calcBarrierScoreHybrid at hd
  by_cases hb : b = 0
  · simp [hb] at hd
  · rw [if_neg hb] at hd
    simp only [Option.some.injEq] at hd
    subst hd
    refine ⟨?_, ?_, ?_⟩
    · intro h8
      simp only at h8 ⊢
      rw [if_pos (by omega : 3 ≤ (barrierRaces h b).length), if_pos h8]
    · intro h3 h7
      simp only at h3 h7 ⊢
      rw [if_pos h3, if_neg (by omega : ¬ 8 ≤ (barrierRaces h b).length)]
    · intro hlt
      simp only at hlt ⊢
      rw [if_neg (by omega : ¬ 3 ≤ (barrierRaces h b).length)]

/-- Concrete five-sample history at draw 4 for the C5 witness. -/
def sampleRecB (pos : ℤ) : CleanRec :=
  { position := pos, barrier := 4, distance := 1200, winningDistance := some 0,
    condition := "" }

/-- Five past starts at the same draw (positions 1, 2, 5, 7, 9). -/
def historyFive : List CleanRec :=
  [sampleRecB 1, sampleRecB 2, sampleRecB 5, sampleRecB 7, sampleRecB 9]

/-- Witness for C5: with exactly 5 personal same-draw samples the computed
personal weight is `0.3 + (5 - 3) * 0.1 = 0.5`. -/
theorem c5_personal_weight_schedule_witness :
    (calcBarrierScoreHybrid historyFive 4 none).2 =
      some ⟨5, some (7/25), 1/2, 1/2, 39/100⟩ ∧
    ((1 : ℚ)/2) = 0.3 + (((5 : ℕ) : ℚ) - 3) * 0.1 := by
  have hraces : barrierRaces historyFive 4 = historyFive := by decide
  have hsome : (calcBarrierScoreHybrid historyFive 4 none).2 =
      some ⟨5, some (7/25), 1/2, 1/2, 39/100⟩ := by
    unfold calcBarrierScoreHybrid
    rw [if_neg (by decide : ¬ (4 : ℤ) = 0)]
    rw [hraces]
    have hw : winsOf historyFive = 1 := by decide
    have hp : placesOf historyFive = 2 := by decide
    have hl : historyFive.length = 5 := by decide
    simp only [hw, hp, hl]
    norm_num [min_def, max_def]
  refine ⟨hsome, ?_⟩
  have := (c5_personal_weight_schedule historyFive 4 none _ hsome).2.1
    (by decide) (by decide)
  simpa using this

/-- C6: in the hybrid barrier dimension, a population statistic with sample
size below 20 is shrunk toward the neutral 0.5 with factor `sampleSize/20`;
sample size 10 pulls the population score exactly halfway toward 0.5; sample
sizes of at least 20 are not discounted. -/
theorem c6_population_reliability_shrink (h : List CleanRec) (b : ℤ)
    (s : DrawStats) (e : StatEntry) (d : BarrierDetails)
    (he : findEntry s.entries b = some e)
    (hd : (calcBarrierScoreHybrid h b (some s)).2 = some d) :
    (e.racesRun < 20 →
      d.statScore = (e.top3Rate / 100 * 0.6 + 0.35) * (e.racesRun / 20) +
        0.5 * (1 - e.racesRun / 20)) ∧
    (20 ≤ e.racesRun → d.statScore = e.top3Rate / 100 * 0.6 + 0.35) ∧
    (e.racesRun = 10 →
      d.statScore = ((e.top3Rate / 100 * 0.6 + 0.35) + 0.5) / 2) := by
  unfold calcBarrierScoreHybrid at hd
  by_cases hb : b = 0
  · simp [hb] at hd
  · rw [if_neg hb] at hd
    simp only [Option.some.injEq] at hd
    subst hd
    refine ⟨?_, ?_, ?_⟩
    · intro hlt
      simp only [he]
      rw [if_pos hlt]
    · intro hge
      simp only [he]
      rw [if_neg (by linarith : ¬ e.racesRun < 20)]
    · intro h10
      simp only [he]
      rw [if_pos (by rw [h10]; norm_num : e.racesRun < 20), h10]
      ring

/-- Concrete population statistics (race 1, draw 4, top-3 rate 40%, sample
size 10) for the C6 witness. -/
def statsSmallSample : DrawStats :=
  { raceNum := some 1, entries := [(4, { top3Rate := 40, racesRun := 10 })] }

/-- Witness for C6: sample size 10 gives shrink factor 0.5 and a population
score pulled exactly halfway from `0.59` toward `0.5`, namely `0.545`. -/
theorem c6_population_reliability_shrink_witness :
    findEntry statsSmallSample.entries 4 = some { top3Rate := 40, racesRun := 10 } ∧
    (calcBarrierScoreHybrid [] 4 (some statsSmallSample)).2 =
      some ⟨0, none, 0, 109/200, 109/200⟩ ∧
    (109/200 : ℚ) = (((40 : ℚ) / 100 * 0.6 + 0.35) + 0.5) / 2 := by
  have he : findEntry statsSmallSample.entries 4 =
      some { top3Rate := 40, racesRun := 10 } := by decide
  have hd : (calcBarrierScoreHybrid [] 4 (some statsSmallSample)).2 =
      some ⟨0, none, 0, 109/200, 109/200⟩ := by
    unfold calcBarrierScoreHybrid
    rw [if_neg (by decide : ¬ (4 : ℤ) = 0)]
    norm_num [barrierRaces, winsOf, placesOf, findEntry, statsSmallSample,
      min_def, max_def]
  refine ⟨he, hd, ?_⟩
  have := (c6_population_reliability_shrink [] 4 statsSmallSample _ _ he hd).2.2
    (by decide)
  simpa using this

/-- Variance of a one-element list is zero. -/
theorem npVar_single (q : ℚ) : npVar [q] = 0 := by
  norm_num [npVar, npMean]

/-- Standard deviation of a one-element list is zero. -/
theorem npStd_single (q : ℚ) : npStd [q] = 0 := by
  unfold npStd
  rw [npVar_single, Rat.cast_zero, Real.sqrt_zero]

/-- C7 counterexample: a classified competitor with exactly one valid early
position (early positions `[2]`, 3 distance-filtered entries).  The standard
deviation of `[2]` is `0`, so the claim's formula gives confidence
`65 - 0 = 65`, but the source applies a flat `-10` penalty for a single
position and returns `55`. -/
theorem c7_counterexample :
    calcRunstyleConfidence [2] 3 = 55 ∧ specRunstyleConfidence [2] 3 = 65 := by
  constructor
  · unfold calcRunstyleConfidence
    rw [if_neg (by decide : ¬ 1 < ([(2 : ℤ)]).length)]
    norm_num [baseConfidence, min_def, max_def]
  · unfold specRunstyleConfidence
    have h1 : ([(2 : ℤ)]).map (fun z => (z : ℚ)) = [2] := by decide
    rw [h1, npStd_single]
    norm_num [baseConfidence, min_def, max_def]

/-- C7 (amended): for every competitor with at least two valid early
positions, the classifier confidence equals the spec's formula — base from
the distance-filtered entry count (≥6→85, ≥4→75, ≥3→65, else 50) minus the
stability penalty from the standard deviation of the early positions
(>3.0→15, >2.0→10, >1.5→5, else 0), clamped to [0,100].  (With a single
valid early position the source instead applies a flat −10 penalty.) -/
theorem c7_confidence_formula (positions : List ℤ) (filteredCount : ℕ)
    (hlen : 2 ≤ positions.length) :
    calcRunstyleConfidence positions filteredCount =
      specRunstyleConfidence positions filteredCount := by
  unfold calcRunstyleConfidence specRunstyleConfidence
  rw [if_pos (by omega : 1 < positions.length)]

/-- Witness for C7 (amended) at early positions `[2, 2]` with 6 filtered
entries. -/
theorem c7_confidence_formula_witness :
    2 ≤ ([(2 : ℤ), 2]).length ∧
    calcRunstyleConfidence [2, 2] 6 = specRunstyleConfidence [2, 2] 6 :=
  ⟨by decide, c7_confidence_formula [2, 2] 6 (by decide)⟩

/-- A past start with the given finishing position (draw 1, 1200 m, zero
winning margin), used in the stability-score analysis. -/
def recStab (pos : ℤ) : CleanRec :=
  { position := pos, barrier := 1, distance := 1200, winningDistance := some 0,
    condition := "" }

/-- History with one win and two unplaced runs. -/
def historyStabA : List CleanRec := [recStab 1, recStab 9, recStab 9]

/-- Same history with one unplaced run improved to a third place: one more
placing, same number of wins, same length, same winning margins. -/
def historyStabB : List CleanRec := [recStab 1, recStab 3, recStab 9]

/-- Distance stability of the two concrete histories is `1` (all recent
winning margins are `0`, so the margin standard deviation is `0`). -/
theorem distStab_historyStab :
    calcDistanceStability historyStabA = 1 ∧ calcDistanceStability historyStabB = 1 := by
  have hstd : npStd [0, 0, 0] = 0 := by
    unfold npStd
    rw [show npVar [0, 0, 0] = 0 by norm_num [npVar, npMean], Rat.cast_zero,
      Real.sqrt_zero]
  constructor <;>
  · unfold calcDistanceStability
    rw [if_neg (by decide)]
    rw [show recentWinningDistances _ = [0, 0, 0] from by decide]
    rw [if_neg (by decide), hstd]
    norm_num

/-- C2 counterexample: converting an unplaced run into a third place (one
more placing, wins, starts and margins unchanged) strictly DECREASES the
stability score — from `1` (win/place ratio `1/1`) to `0.65` (ratio `1/2`) —
so the score is not monotone in the placement rate. -/
theorem c2_counterexample :
    historyStabA.length = historyStabB.length ∧
    winsOf historyStabB = winsOf historyStabA ∧
    placesOf historyStabA < placesOf historyStabB ∧
    calcStabilityScore historyStabB < calcStabilityScore historyStabA := by
  refine ⟨by decide, by decide, by decide, ?_⟩
  have hA : calcStabilityScore historyStabA = 1 := by
    unfold calcStabilityScore
    rw [if_neg (by decide), distStab_historyStab.1]
    rw [show winOverPlaces historyStabA = 1 by
      norm_num [winOverPlaces, show placesOf historyStabA = 1 from by decide,
        show winsOf historyStabA = 1 from by decide]]
    norm_num
  have hB : calcStabilityScore historyStabB = 0.65 := by
    unfold calcStabilityScore
    rw [if_neg (by decide), distStab_historyStab.2]
    rw [show winOverPlaces historyStabB = 1/2 by
      norm_num [winOverPlaces, show placesOf historyStabB = 2 from by decide,
        show winsOf historyStabB = 1 from by decide]]
    norm_num
  rw [hA, hB]
  norm_num

/-- Every win is a placing, so the win count never exceeds the place count. -/
theorem winsOf_le_placesOf (h : List CleanRec) : winsOf h ≤ placesOf h := by
  unfold winsOf placesOf
  apply List.countP_mono_left
  intro r _ hr
  simp only [decide_eq_true_eq] at hr ⊢
  omega

/-- The win/place ratio is monotone under adding the same number of wins and
placings. -/
theorem winOverPlaces_mono (h1 h2 : List CleanRec) (k : ℕ)
    (hw : winsOf h2 = winsOf h1 + k) (hp : placesOf h2 = placesOf h1 + k) :
    winOverPlaces h1 ≤ winOverPlaces h2 := by
  unfold winOverPlaces
  by_cases hp1 : 0 < placesOf h1
  · have hp2 : 0 < placesOf h2 := by omega
    rw [if_pos hp1, if_pos hp2]
    have hwle := winsOf_le_placesOf h1
    rw [div_le_div_iff₀ (by exact_mod_cast hp1) (by exact_mod_cast hp2)]
    push_cast [hw, hp]
    nlinarith [Nat.cast_nonneg (α := ℚ) k, Nat.cast_nonneg (α := ℚ) (winsOf h1),
      (by exact_mod_cast hwle : (winsOf h1 : ℚ) ≤ placesOf h1)]
  · rw [if_neg hp1]
    by_cases hp2 : 0 < placesOf h2
    · rw [if_pos hp2]
      positivity
    · rw [if_neg hp2]

/-- C2 (amended): increasing a competitor's placements only by adding wins —
wins and placings grow by the same amount, total starts and the recent
winning-margin data (hence the distance-stability term) held fixed — never
decreases the stability-dimension score.  (Adding a non-win placing can
decrease it, per the counterexample.) -/
theorem c2_stability_monotone_in_wins (h1 h2 : List CleanRec) (k : ℕ)
    (hlen : h1.length = h2.length)
    (hw : winsOf h2 = winsOf h1 + k)
    (hp : placesOf h2 = placesOf h1 + k)
    (hds : calcDistanceStability h1 = calcDistanceStability h2) :
    calcStabilityScore h1 ≤ calcStabilityScore h2 := by
  by_cases hemp : h1 = []
  · subst hemp
    have : h2 = [] := by
      cases h2 with
      | nil => rfl
      | cons a t => simp at hlen
    subst this
    exact le_refl _
  · have hemp2 : h2 ≠ [] := by
      cases h2 with
      | nil =>
        cases h1 with
        | nil => exact absurd rfl hemp
        | cons a t => simp at hlen
      | cons a t => exact List.cons_ne_nil a t
    unfold calcStabilityScore
    rw [if_neg hemp, if_neg hemp2, hds]
    refine min_le_min (le_refl 1) (max_le_max (le_refl 0) ?_)
    have hr : winOverPlaces h1 ≤ winOverPlaces h2 := winOverPlaces_mono h1 h2 k hw hp
    have hrR : (winOverPlaces h1 : ℝ) ≤ (winOverPlaces h2 : ℝ) := by exact_mod_cast hr
    nlinarith [hrR]

/-- Witness for C2 (amended): turning the single unplaced run `[9]` into the
single win `[1]` (wins and placings both +1, length and margins fixed) does
not decrease the stability score. -/
theorem c2_stability_monotone_in_wins_witness :
    ([recStab 9]).length = ([recStab 1]).length ∧
    winsOf [recStab 1] = winsOf [recStab 9] + 1 ∧
    placesOf [recStab 1] = placesOf [recStab 9] + 1 ∧
    calcDistanceStability [recStab 9] = calcDistanceStability [recStab 1] ∧
    calcStabilityScore [recStab 9] ≤ calcStabilityScore [recStab 1] := by
  have hds : calcDistanceStability [recStab 9] = calcDistanceStability [recStab 1] := by
    unfold calcDistanceStability
    rw [if_pos (by decide), if_pos (by decide)]
  exact ⟨by decide, by decide, by decide, hds,
    c2_stability_monotone_in_wins [recStab 9] [recStab 1] 1 (by decide)
      (by decide) (by decide) hds⟩

/-- Timestamp projection of a `calculate_scores` result. -/
def timestampOf : Except String ScoreOutput → Option String
  | .ok o => some o.timestamp
  | .error _ => none

/-- All fields of a `calculate_scores` result except the timestamp. -/
def scoreCore (o : ScoreOutput) : ℝ × ℝ × ℝ × ℝ × ℝ × ℝ × ℝ × String :=
  (o.barrier, o.distance, o.going, o.stability, o.trend, o.consistency,
    o.totalScore, o.grade)

/-- All fields of a fusion result except the timestamp. -/
def fusionCore (o : FusionOut) : PaceType × ℝ × ℝ × ℝ × ℝ × ℝ :=
  (o.paceType, o.confidence, o.paceValueFusion, o.wTraditional, o.wEpp,
    o.divergence)

/-- C4 counterexample: two calls with identical inputs but different ambient
wall-clock readings return different results, both for `calculate_scores`
and for `predict_pace_hybrid_v1_confidence_weighted` — each embeds
`datetime.now()` in its `timestamp` field, so neither output is a pure
function of the inputs. -/
theorem c4_counterexample :
    calculateScores [] {} none "2026-01-01T00:00:00" ≠
      calculateScores [] {} none "2026-01-01T00:00:01" ∧
    predictPaceHybridV1 [({} : PacePred)] 12 "2026-01-01T00:00:00" ≠
      predictPaceHybridV1 [({} : PacePred)] 12 "2026-01-01T00:00:01" := by
  constructor
  · intro heq
    have h := congrArg timestampOf heq
    have h1 : timestampOf (calculateScores [] {} none "2026-01-01T00:00:00") =
        some "2026-01-01T00:00:00" := rfl
    have h2 : timestampOf (calculateScores [] {} none "2026-01-01T00:00:01") =
        some "2026-01-01T00:00:01" := rfl
    rw [h1, h2] at h
    have := Option.some.inj h
    exact absurd this (by decide)
  · intro heq
    have h := congrArg FusionOut.timestamp heq
    have h1 : (predictPaceHybridV1 [({} : PacePred)] 12
        "2026-01-01T00:00:00").timestamp = "2026-01-01T00:00:00" := rfl
    have h2 : (predictPaceHybridV1 [({} : PacePred)] 12
        "2026-01-01T00:00:01").timestamp = "2026-01-01T00:00:01" := rfl
    rw [h1, h2] at h
    exact absurd h (by decide)

/-- C4 (amended): every field of a component's result other than the
wall-clock `timestamp` is a pure function of the inputs — two
`calculate_scores` calls with identical history, race info and statistics
agree on all score fields and the grade, and two
`predict_pace_hybrid_v1_confidence_weighted` calls with identical predictions
and field size agree on the fused band, confidence, value, weights and
divergence, whatever the clock reads. -/
theorem c4_pure_modulo_timestamp :
    (∀ (history : List RawRec) (ri : RaceInfo) (stats : Option DrawStats)
      (t1 t2 : String),
      (calculateScores history ri stats t1).map scoreCore =
        (calculateScores history ri stats t2).map scoreCore) ∧
    (∀ (preds : List PacePred) (totalHorses : ℕ) (t1 t2 : String),
      fusionCore (predictPaceHybridV1 preds totalHorses t1) =
        fusionCore (predictPaceHybridV1 preds totalHorses t2)) := by
  constructor
  · intro history ri stats t1 t2
    unfold calculateScores
    cases hg : raceMismatch (clean_int_field ri.raceNum) stats <;>
      simp [hg, scoreCore, Except.map]
  · intro preds totalHorses t1 t2
    unfold predictPaceHybridV1
    by_cases hp : preds = []
    · simp [hp]
    · simp [hp, fusionCore]

/-- Race info whose (cleaned) race number is the falsy `0`. -/
def raceInfoZero : RaceInfo :=
  { raceNum := some 0, barrier := some 11, distance := some 1200, going := none }

/-- Population statistics keyed to race 2 (draw 11: top-3 rate 39%,
100 samples). -/
def statsRaceTwo : DrawStats :=
  { raceNum := some 2, entries := [(11, { top3Rate := 39, racesRun := 100 })] }

/-- C1 counterexample: scoring a race whose (cleaned) race number `0`
disagrees with the supplied statistic's race key `2` does NOT fail — the
Python guard `if expected_race_num and …` skips validation for a falsy
expected number, and the barrier dimension is silently computed from the
mismatched statistic (score `0.584`, not the neutral `0.5`). -/
theorem c1_counterexample :
    clean_int_field raceInfoZero.raceNum ≠ (2 : ℤ) ∧
    statsRaceTwo.raceNum = some 2 ∧
    calculateScores [] raceInfoZero (some statsRaceTwo) "t0" =
      .ok ⟨73/125, 0.5, 0.5, 0.5, 0.5, 0.5, 323/625, "B-", "t0"⟩ := by
  refine ⟨by decide, rfl, ?_⟩
  have hb : (calcBarrierScoreHybrid [] 11 (some statsRaceTwo)).1 = 73/125 := by
    unfold calcBarrierScoreHybrid
    rw [if_neg (by decide : ¬ (11 : ℤ) = 0)]
    norm_num [barrierRaces, winsOf, placesOf, findEntry, statsRaceTwo,
      min_def, max_def]
  have hguard : raceMismatch (clean_int_field raceInfoZero.raceNum)
      (some statsRaceTwo) = false := rfl
  unfold calculateScores
  simp only [List.map_nil, hguard, Bool.false_eq_true, if_false]
  rw [show clean_int_field raceInfoZero.barrier = 11 from rfl,
    show clean_int_field raceInfoZero.distance = 1200 from rfl]
  rw [hb]
  simp only [Except.ok.injEq, ScoreOutput.mk.injEq]
  norm_num [calcDistanceScore, calcGoingScore, calcStabilityScore,
    calcTrendScore, calcConsistencyScore, raceInfoZero, calcGrade]

/-- C1 (amended): whenever the supplied statistic carries a race key and the
(cleaned) race number of the race being scored is truthy (nonzero), any
disagreement between the two makes `calculate_scores` fail with the
race-mismatch fault instead of computing a score.  (With a falsy race number
`0`, or a statistic lacking the key, the statistic is consumed unvalidated,
per the counterexample.) -/
theorem c1_race_mismatch_guard (history : List RawRec) (ri : RaceInfo)
    (s : DrawStats) (actual : ℤ) (now : String)
    (hkey : s.raceNum = some actual)
    (hnz : clean_int_field ri.raceNum ≠ 0)
    (hne : clean_int_field ri.raceNum ≠ actual) :
    calculateScores history ri (some s) now = .error raceMismatchMsg := by
  unfold calculateScores
  have hg : raceMismatch (clean_int_field ri.raceNum) (some s) = true := by
    simp only [raceMismatch, hkey]
    simp [hnz, hne]
  simp [hg]

/-- Witness for C1 (amended): statistics keyed to race 2 supplied while
scoring race 1 make the call fail with the race-mismatch fault. -/
theorem c1_race_mismatch_guard_witness :
    statsRaceTwo.raceNum = some 2 ∧
    clean_int_field (some (1 : ℤ)) ≠ 0 ∧
    clean_int_field (some (1 : ℤ)) ≠ 2 ∧
    calculateScores [] { raceNum := some 1 } (some statsRaceTwo) "t" =
      .error raceMismatchMsg :=
  ⟨rfl, by decide, by decide,
    c1_race_mismatch_guard [] { raceNum := some 1 } statsRaceTwo 2 "t" rfl
      (by decide) (by decide)⟩

/-- The hybrid barrier score always lies in `[0, 1]`. -/
theorem calcBarrierScoreHybrid_bounds (h : List CleanRec) (b : ℤ)
    (stats : Option DrawStats) :
    0 ≤ (calcBarrierScoreHybrid h b stats).1 ∧ (calcBarrierScoreHybrid h b stats).1 ≤ 1 := by
  unfold calcBarrierScoreHybrid
  by_cases hb : b = 0
  · rw [if_pos hb]
    norm_num
  · rw [if_neg hb]
    exact ⟨le_max_left 0 _, max_le (by norm_num) (min_le_left 1 _)⟩

/-- The distance-adaptation score always lies in `[0, 1]`. -/
theorem calcDistanceScore_bounds (h : List CleanRec) (t : ℤ) :
    0 ≤ calcDistanceScore h t ∧ calcDistanceScore h t ≤ 1 := by
  unfold calcDistanceScore
  by_cases h1 : h = [] ∨ t = 0
  · simp only [if_pos h1]
    norm_num
  · simp only [if_neg h1]
    by_cases h2 :
        (h.filter fun r => decide (r.distance ≠ 0 ∧ |r.distance - t| ≤ 100)) = []
    · simp only [if_pos h2]
      norm_num
    · simp only [if_neg h2]
      exact ⟨le_min (by norm_num) (le_max_left 0 _), min_le_left 1 _⟩

/-- The going-adaptation score always lies in `[0, 1]`. -/
theorem calcGoingScore_bounds (h : List CleanRec) (going : Option String) :
    0 ≤ calcGoingScore h going ∧ calcGoingScore h going ≤ 1 := by
  cases going with
  | none => norm_num [calcGoingScore]
  | some g =>
    unfold calcGoingScore
    by_cases h1 : h = [] ∨ g = ""
    · simp only [if_pos h1]
      norm_num
    · simp only [if_neg h1]
      by_cases h2 : (h.filter fun r =>
          decide (strIn (normGoing g) (normGoing r.condition) ∨
            strIn (normGoing r.condition) (normGoing g))) = []
      · simp only [if_pos h2]
        norm_num
      · simp only [if_neg h2]
        exact ⟨le_min (by norm_num) (le_max_left 0 _), min_le_left 1 _⟩

/-- The stability score always lies in `[0, 1]`. -/
theorem calcStabilityScore_bounds (h : List CleanRec) :
    0 ≤ calcStabilityScore h ∧ calcStabilityScore h ≤ 1 := by
  unfold calcStabilityScore
  split_ifs with h1
  · norm_num
  · exact ⟨le_min (by norm_num) (le_max_left 0 _), min_le_left 1 _⟩

/-- The trend ratio is nonnegative. -/
theorem trendFactorOf_nonneg (h : List CleanRec) : 0 ≤ trendFactorOf h := by
  unfold trendFactorOf
  by_cases h1 : 0 < (placesOf h : ℚ) / h.length
  · simp only [if_pos h1]
    have hr : (0 : ℚ) ≤ (placesOf (h.take (min 5 h.length)) : ℚ) / (min 5 h.length : ℕ) := by
      positivity
    exact div_nonneg hr (le_of_lt h1)
  · simp only [if_neg h1]
    split_ifs <;> norm_num

/-- The trend band map sends nonnegative ratios into `[0, 1]`. -/
theorem trendBand_bounds (tf : ℚ) (h0 : 0 ≤ tf) :
    0 ≤ trendBand tf ∧ trendBand tf ≤ 1 := by
  unfold trendBand
  split_ifs with ha hb
  · exact ⟨le_min (by norm_num) (by nlinarith), min_le_left 1 _⟩
  · constructor <;> nlinarith
  · norm_num

/-- The trend score always lies in `[0, 1]`. -/
theorem calcTrendScore_bounds (h : List CleanRec) :
    0 ≤ calcTrendScore h ∧ calcTrendScore h ≤ 1 := by
  unfold calcTrendScore
  split_ifs with h1
  · norm_num
  · exact trendBand_bounds _ (trendFactorOf_nonneg h)

/-- The consistency score always lies in `[0, 1]`. -/
theorem calcConsistencyScore_bounds (h : List CleanRec) :
    0 ≤ calcConsistencyScore h ∧ calcConsistencyScore h ≤ 1 := by
  unfold calcConsistencyScore
  by_cases h1 : h = []
  · simp only [if_pos h1]
    norm_num
  · simp only [if_neg h1]
    by_cases h2 : ((h.map fun r => r.position).all fun p => decide (p = 99)) = true
    · simp only [if_pos h2]
      norm_num
    · simp only [if_neg h2]
      by_cases h3 : ((h.map fun r => r.position).filter fun p => decide (p ≠ 99)).length < 2
      · simp only [if_pos h3]
        norm_num
      · simp only [if_neg h3]
        exact ⟨le_min (by norm_num) (le_max_left 0 _), min_le_left 1 _⟩

/-- C9: every successful `calculate_scores` result has all six dimension
scores in `[0, 1]` and the weighted total in `[0, 1]`, and the six dimension
weights (0.20, 0.20, 0.10, 0.25, 0.15, 0.10) sum to exactly 1. -/
theorem c9_scores_bounded (history : List RawRec) (ri : RaceInfo)
    (stats : Option DrawStats) (now : String) (out : ScoreOutput)
    (hok : calculateScores history ri stats now = .ok out) :
    ((0 ≤ out.barrier ∧ out.barrier ≤ 1) ∧
     (0 ≤ out.distance ∧ out.distance ≤ 1) ∧
     (0 ≤ out.going ∧ out.going ≤ 1) ∧
     (0 ≤ out.stability ∧ out.stability ≤ 1) ∧
     (0 ≤ out.trend ∧ out.trend ≤ 1) ∧
     (0 ≤ out.consistency ∧ out.consistency ≤ 1) ∧
     (0 ≤ out.totalScore ∧ out.totalScore ≤ 1)) ∧
    dimensionWeights.sum = 1 := by
  constructor
  · unfold calculateScores at hok
    split at hok
    · simp at hok
    · simp only [Except.ok.injEq] at hok
      subst hok
      obtain ⟨hb0, hb1⟩ := calcBarrierScoreHybrid_bounds (history.map cleanRec)
        (clean_int_field ri.barrier) stats
      obtain ⟨hd0, hd1⟩ := calcDistanceScore_bounds (history.map cleanRec)
        (clean_int_field ri.distance)
      obtain ⟨hg0, hg1⟩ := calcGoingScore_bounds (history.map cleanRec) ri.going
      obtain ⟨hs0, hs1⟩ := calcStabilityScore_bounds (history.map cleanRec)
      obtain ⟨ht0, ht1⟩ := calcTrendScore_bounds (history.map cleanRec)
      obtain ⟨hc0, hc1⟩ := calcConsistencyScore_bounds (history.map cleanRec)
      have hb0R : (0 : ℝ) ≤ (calcBarrierScoreHybrid (history.map cleanRec)
          (clean_int_field ri.barrier) stats).1 := by exact_mod_cast hb0
      have hb1R : ((calcBarrierScoreHybrid (history.map cleanRec)
          (clean_int_field ri.barrier) stats).1 : ℝ) ≤ 1 := by exact_mod_cast hb1
      have hd0R : (0 : ℝ) ≤ (calcDistanceScore (history.map cleanRec)
          (clean_int_field ri.distance) : ℚ) := by exact_mod_cast hd0
      have hd1R : ((calcDistanceScore (history.map cleanRec)
          (clean_int_field ri.distance) : ℚ) : ℝ) ≤ 1 := by exact_mod_cast hd1
      have hg0R : (0 : ℝ) ≤ (calcGoingScore (history.map cleanRec) ri.going : ℚ) := by
        exact_mod_cast hg0
      have hg1R : ((calcGoingScore (history.map cleanRec) ri.going : ℚ) : ℝ) ≤ 1 := by
        exact_mod_cast hg1
      have ht0R : (0 : ℝ) ≤ (calcTrendScore (history.map cleanRec) : ℚ) := by
        exact_mod_cast ht0
      have ht1R : ((calcTrendScore (history.map cleanRec) : ℚ) : ℝ) ≤ 1 := by
        exact_mod_cast ht1
      refine ⟨⟨hb0R, hb1R⟩, ⟨hd0R, hd1R⟩, ⟨hg0R, hg1R⟩, ⟨hs0, hs1⟩,
        ⟨ht0R, ht1R⟩, ⟨hc0, hc1⟩, ?_, ?_⟩ <;> dsimp only <;> linarith
  · norm_num [dimensionWeights]

/-- Race info for the C9 witness: race 1, draw 3, 1000 m, no going text. -/
def raceInfoSimple : RaceInfo :=
  { raceNum := some 1, barrier := some 3, distance := some 1000, going := none }

/-- The fully neutral scorecard produced on an empty history. -/
noncomputable def outputNeutral : ScoreOutput :=
  ⟨0.5, 0.5, 0.5, 0.5, 0.5, 0.5, 0.5, "B-", "t"⟩

/-- Witness for C9: on an empty history every dimension evaluates to the
neutral 0.5, the total is 0.5, and the bounds hold. -/
theorem c9_scores_bounded_witness :
    calculateScores [] raceInfoSimple none "t" = .ok outputNeutral ∧
    (((0 ≤ outputNeutral.barrier ∧ outputNeutral.barrier ≤ 1) ∧
      (0 ≤ outputNeutral.distance ∧ outputNeutral.distance ≤ 1) ∧
      (0 ≤ outputNeutral.going ∧ outputNeutral.going ≤ 1) ∧
      (0 ≤ outputNeutral.stability ∧ outputNeutral.stability ≤ 1) ∧
      (0 ≤ outputNeutral.trend ∧ outputNeutral.trend ≤ 1) ∧
      (0 ≤ outputNeutral.consistency ∧ outputNeutral.consistency ≤ 1) ∧
      (0 ≤ outputNeutral.totalScore ∧ outputNeutral.totalScore ≤ 1)) ∧
     dimensionWeights.sum = 1) := by
  have hb : (calcBarrierScoreHybrid [] 3 none).1 = 1/2 := by
    unfold calcBarrierScoreHybrid
    rw [if_neg (by decide : ¬ (3 : ℤ) = 0)]
    norm_num [barrierRaces, winsOf, placesOf, min_def, max_def]
  have hok : calculateScores [] raceInfoSimple none "t" = .ok outputNeutral := by
    unfold calculateScores
    simp only [List.map_nil,
      show raceMismatch (clean_int_field raceInfoSimple.raceNum) none = false from rfl,
      Bool.false_eq_true, if_false]
    rw [show clean_int_field raceInfoSimple.barrier = 3 from rfl,
      show clean_int_field raceInfoSimple.distance = 1000 from rfl, hb]
    simp only [Except.ok.injEq, ScoreOutput.mk.injEq]
    norm_num [calcDistanceScore, calcGoingScore, calcStabilityScore,
      calcTrendScore, calcConsistencyScore, calcGrade, raceInfoSimple, outputNeutral]
  exact ⟨hok, c9_scores_bounded [] raceInfoSimple none "t" outputNeutral hok⟩

/-- Closed form of `calculate_distance_to_template`: once the rational sum of
squares is computed, the distance is its real square root. -/
theorem distanceToTemplate_eq_sqrt (d : Distribution) (t : ℚ × ℚ × ℚ) (q : ℚ)
    (h0 : 0 < d.total)
    (hq : ((d.front : ℚ) * (12 / (d.total : ℚ)) - t.1) ^ 2 +
        ((d.mid : ℚ) * (12 / (d.total : ℚ)) - t.2.1) ^ 2 +
        ((d.back : ℚ) * (12 / (d.total : ℚ)) - t.2.2) ^ 2 = q) :
    distanceToTemplate d t = Real.sqrt ((q : ℚ) : ℝ) := by
  unfold distanceToTemplate
  rw [if_pos h0]
  rw [← hq]
  push_cast
  ring_nf

/-- Selection `min(distances, key=...)` keeps the first entry when it is minimal. -/
theorem pickBest_first (t0 t1 t2 t3 t4 : PaceType) (s0 s1 s2 s3 s4 : ℝ)
    (h1 : ¬ s1 < s0) (h2 : ¬ s2 < s0) (h3 : ¬ s3 < s0) (h4 : ¬ s4 < s0) :
    pickBest [(t0, s0), (t1, s1), (t2, s2), (t3, s3), (t4, s4)] = (t0, s0) := by
  simp only [pickBest, List.foldl_cons, List.foldl_nil]
  dsimp only
  rw [if_neg h1]
  dsimp only
  rw [if_neg h2]
  dsimp only
  rw [if_neg h3]
  dsimp only
  rw [if_neg h4]

/-- Selection `min(distances, key=...)` picks the second entry when it is the unique
improvement. -/
theorem pickBest_second (t0 t1 t2 t3 t4 : PaceType) (s0 s1 s2 s3 s4 : ℝ)
    (h1 : s1 < s0) (h2 : ¬ s2 < s1) (h3 : ¬ s3 < s1) (h4 : ¬ s4 < s1) :
    pickBest [(t0, s0), (t1, s1), (t2, s2), (t3, s3), (t4, s4)] = (t1, s1) := by
  simp only [pickBest, List.foldl_cons, List.foldl_nil]
  dsimp only
  rw [if_pos h1]
  dsimp only
  rw [if_neg h2]
  dsimp only
  rw [if_neg h3]
  dsimp only
  rw [if_neg h4]

/-- A competitor record carrying only a style label. -/
def predStyle (s : String) : PacePred := { runningStyle := some s }

/-- Scenario B field: 12 competitors classified 7 FRONT, 3 MID, 2 BACK. -/
def fieldTwelve : List PacePred :=
  List.replicate 7 (predStyle "FRONT") ++ List.replicate 3 (predStyle "MID") ++
    List.replicate 2 (predStyle "BACK")

/-- Full evaluation of the pace diagnostic on the 7/3/2 field: the `FAST`
archetype is selected at scaled distance `√(3/4) ≈ 0.866` and the confidence
is `100 - √(3/4)/6·100 ≈ 85.57`, with no ambiguity penalty. -/
theorem diag_fieldTwelve_eval :
    predictPaceDiagnostic fieldTwelve =
      ⟨.FAST, 100 - Real.sqrt (3/4) / 6 * 100,
        [(.FAST, Real.sqrt (3/4)), (.MODERATELY_FAST, Real.sqrt (35/4)),
         (.NORMAL, Real.sqrt (75/4)), (.MODERATELY_SLOW, Real.sqrt (115/4)),
         (.SLOW, Real.sqrt (203/4))]⟩ := by
  have hdist : getRunstyleDistribution fieldTwelve = ⟨7, 3, 2⟩ := by decide
  have hF : distanceToTemplate ⟨7, 3, 2⟩ (templateOf .FAST) = Real.sqrt (3/4) := by
    rw [distanceToTemplate_eq_sqrt ⟨7, 3, 2⟩ _ (3/4) (by decide)
      (by norm_num [Distribution.total, templateOf])]
    norm_num
  have hMF : distanceToTemplate ⟨7, 3, 2⟩ (templateOf .MODERATELY_FAST) =
      Real.sqrt (35/4) := by
    rw [distanceToTemplate_eq_sqrt ⟨7, 3, 2⟩ _ (35/4) (by decide)
      (by norm_num [Distribution.total, templateOf])]
    norm_num
  have hN : distanceToTemplate ⟨7, 3, 2⟩ (templateOf .NORMAL) =
      Real.sqrt (75/4) := by
    rw [distanceToTemplate_eq_sqrt ⟨7, 3, 2⟩ _ (75/4) (by decide)
      (by norm_num [Distribution.total, templateOf])]
    norm_num
  have hMS : distanceToTemplate ⟨7, 3, 2⟩ (templateOf .MODERATELY_SLOW) =
      Real.sqrt (115/4) := by
    rw [distanceToTemplate_eq_sqrt ⟨7, 3, 2⟩ _ (115/4) (by decide)
      (by norm_num [Distribution.total, templateOf])]
    norm_num
  have hS : distanceToTemplate ⟨7, 3, 2⟩ (templateOf .SLOW) =
      Real.sqrt (203/4) := by
    rw [distanceToTemplate_eq_sqrt ⟨7, 3, 2⟩ _ (203/4) (by decide)
      (by norm_num [Distribution.total, templateOf])]
    norm_num
  have m1 : Real.sqrt (3/4) ≤ Real.sqrt ((35 : ℝ)/4) := Real.sqrt_le_sqrt (by norm_num)
  have m2 : Real.sqrt (3/4) ≤ Real.sqrt ((75 : ℝ)/4) := Real.sqrt_le_sqrt (by norm_num)
  have m3 : Real.sqrt (3/4) ≤ Real.sqrt ((115 : ℝ)/4) := Real.sqrt_le_sqrt (by norm_num)
  have m4 : Real.sqrt (3/4) ≤ Real.sqrt ((203 : ℝ)/4) := Real.sqrt_le_sqrt (by norm_num)
  have n2 : Real.sqrt ((35 : ℝ)/4) ≤ Real.sqrt ((75 : ℝ)/4) :=
    Real.sqrt_le_sqrt (by norm_num)
  have n3 : Real.sqrt ((35 : ℝ)/4) ≤ Real.sqrt ((115 : ℝ)/4) :=
    Real.sqrt_le_sqrt (by norm_num)
  have n4 : Real.sqrt ((35 : ℝ)/4) ≤ Real.sqrt ((203 : ℝ)/4) :=
    Real.sqrt_le_sqrt (by norm_num)
  have h29 : (2.9 : ℝ) ≤ Real.sqrt (35/4) := by
    calc (2.9 : ℝ) = Real.sqrt (2.9 ^ 2) := (Real.sqrt_sq (by norm_num)).symm
    _ ≤ Real.sqrt (35/4) := Real.sqrt_le_sqrt (by norm_num)
  have h09 : Real.sqrt ((3 : ℝ)/4) ≤ 0.9 := by
    calc Real.sqrt ((3 : ℝ)/4) ≤ Real.sqrt (0.9 ^ 2) := Real.sqrt_le_sqrt (by norm_num)
    _ = 0.9 := Real.sqrt_sq (by norm_num)
  unfold predictPaceDiagnostic
  rw [hdist]
  rw [if_neg (by decide : ¬ (Distribution.mk 7 3 2).total = 0)]
  simp only [templateOrder, List.map_cons, List.map_nil]
  rw [hF, hMF, hN, hMS, hS]
  rw [pickBest_first _ _ _ _ _ _ _ _ _ _ (not_lt.mpr m1) (not_lt.mpr m2)
    (not_lt.mpr m3) (not_lt.mpr m4)]
  dsimp only
  rw [if_pos (show (2 : ℕ) ≤ [Real.sqrt (3/4), Real.sqrt (35/4), Real.sqrt (75/4),
    Real.sqrt (115/4), Real.sqrt (203/4)].length by simp)]
  have hmin : listMinR [Real.sqrt (3/4), Real.sqrt (35/4), Real.sqrt (75/4),
      Real.sqrt (115/4), Real.sqrt (203/4)] = Real.sqrt (3/4) := by
    simp only [listMinR, List.foldl_cons, List.foldl_nil]
    rw [min_eq_left m1, min_eq_left m2, min_eq_left m3, min_eq_left m4]
  rw [hmin]
  have hrm : removeFirst [Real.sqrt (3/4), Real.sqrt (35/4), Real.sqrt (75/4),
      Real.sqrt (115/4), Real.sqrt (203/4)] (Real.sqrt (3/4)) =
      [Real.sqrt (35/4), Real.sqrt (75/4), Real.sqrt (115/4), Real.sqrt (203/4)] := by
    simp only [removeFirst]
    simp
  rw [hrm]
  have hmin2 : listMinR [Real.sqrt (35/4), Real.sqrt (75/4), Real.sqrt (115/4),
      Real.sqrt (203/4)] = Real.sqrt (35/4) := by
    simp only [listMinR, List.foldl_cons, List.foldl_nil]
    rw [min_eq_left n2, min_eq_left n3, min_eq_left n4]
  rw [hmin2]
  rw [if_neg (by nlinarith : ¬ Real.sqrt (35/4) - Real.sqrt (3/4) < 0.5)]
  have hle100 : 100 - Real.sqrt (3/4) / 6 * 100 ≤ 100 := by
    nlinarith [Real.sqrt_nonneg ((3 : ℝ)/4)]
  have hge0 : (0 : ℝ) ≤ 100 - Real.sqrt (3/4) / 6 * 100 := by nlinarith
  rw [min_eq_right hle100, max_eq_right hge0]

/-- C3 counterexample: on the 7-front/3-mid/2-back field of 12 the diagnostic
confidence is `100 - √0.75/6·100 ≈ 85.57`, strictly below the 90 the claim
asserts (the minimal scaled distance is `√0.75 ≈ 0.866`, not near 0 enough
for confidence 90). -/
theorem c3_counterexample : (predictPaceDiagnostic fieldTwelve).confidence < 90 := by
  rw [diag_fieldTwelve_eval]
  have h06 : (0.6 : ℝ) < Real.sqrt (3/4) := by
    calc (0.6 : ℝ) = Real.sqrt (0.6 ^ 2) := (Real.sqrt_sq (by norm_num)).symm
    _ < Real.sqrt (3/4) := Real.sqrt_lt_sqrt (by norm_num) (by norm_num)
  dsimp only
  linarith

/-- C3 (amended): on the 7-front/3-mid/2-back field of 12 the distribution
estimator selects the `FAST` archetype; the scaled Euclidean distance to its
template is `√(3/4) ≈ 0.866` and the confidence is exactly
`100 - √(3/4)/6·100 ≈ 85.57` — at least 85 but strictly below 90 (no
ambiguity penalty applies). -/
theorem c3_diagnostic_seven_three_two :
    (predictPaceDiagnostic fieldTwelve).paceType = .FAST ∧
    (predictPaceDiagnostic fieldTwelve).distances =
      [(.FAST, Real.sqrt (3/4)), (.MODERATELY_FAST, Real.sqrt (35/4)),
       (.NORMAL, Real.sqrt (75/4)), (.MODERATELY_SLOW, Real.sqrt (115/4)),
       (.SLOW, Real.sqrt (203/4))] ∧
    (predictPaceDiagnostic fieldTwelve).confidence =
      100 - Real.sqrt (3/4) / 6 * 100 ∧
    85 ≤ (predictPaceDiagnostic fieldTwelve).confidence := by
  rw [diag_fieldTwelve_eval]
  refine ⟨rfl, rfl, rfl, ?_⟩
  have h09 : Real.sqrt ((3 : ℝ)/4) ≤ 0.9 := by
    calc Real.sqrt ((3 : ℝ)/4) ≤ Real.sqrt (0.9 ^ 2) := Real.sqrt_le_sqrt (by norm_num)
    _ = 0.9 := Real.sqrt_sq (by norm_num)
  dsimp only
  linarith

/-- A competitor record with style label, adjusted early position and draw. -/
def predFull (s : String) (adj : ℚ) (d : ℤ) : PacePred :=
  { runningStyle := some s, adjustedPosition := some adj, draw := some d }

/-- Failing input for the fusion engine: 8 competitors, styles 3 FRONT /
3 MID / 2 BACK, five of them with adjusted position 2 (front pressure) at
draws 1–5. -/
def fieldEight : List PacePred :=
  [predFull "FRONT" 2 1, predFull "FRONT" 2 2, predFull "FRONT" 2 3,
   predFull "MID" 2 4, predFull "MID" 2 5, predFull "MID" 6 6,
   predFull "BACK" 6 7, predFull "BACK" 6 8]

/-- Full evaluation of the distribution diagnostic on `fieldEight`: scaled
counts (4.5, 4.5, 3) sit at distance 0.5 from the `MODERATELY_FAST` template,
giving confidence `100 - 0.5/6·100 = 275/3 ≈ 91.67`. -/
theorem diag_fieldEight_eval :
    predictPaceDiagnostic fieldEight =
      ⟨.MODERATELY_FAST, 275/3,
        [(.FAST, Real.sqrt (29/4)), (.MODERATELY_FAST, 1/2), (.NORMAL, 3/2),
         (.MODERATELY_SLOW, 5/2), (.SLOW, Real.sqrt (89/4))]⟩ := by
  have hdist : getRunstyleDistribution fieldEight = ⟨3, 3, 2⟩ := by decide
  have hF : distanceToTemplate ⟨3, 3, 2⟩ (templateOf .FAST) = Real.sqrt (29/4) := by
    rw [distanceToTemplate_eq_sqrt ⟨3, 3, 2⟩ _ (29/4) (by decide)
      (by norm_num [Distribution.total, templateOf])]
    norm_num
  have hMF : distanceToTemplate ⟨3, 3, 2⟩ (templateOf .MODERATELY_FAST) = 1/2 := by
    rw [distanceToTemplate_eq_sqrt ⟨3, 3, 2⟩ _ (1/4) (by decide)
      (by norm_num [Distribution.total, templateOf])]
    rw [show ((1/4 : ℚ) : ℝ) = (1/2 : ℝ) ^ 2 by norm_num]
    exact Real.sqrt_sq (by norm_num)
  have hN : distanceToTemplate ⟨3, 3, 2⟩ (templateOf .NORMAL) = 3/2 := by
    rw [distanceToTemplate_eq_sqrt ⟨3, 3, 2⟩ _ (9/4) (by decide)
      (by norm_num [Distribution.total, templateOf])]
    rw [show ((9/4 : ℚ) : ℝ) = (3/2 : ℝ) ^ 2 by norm_num]
    exact Real.sqrt_sq (by norm_num)
  have hMS : distanceToTemplate ⟨3, 3, 2⟩ (templateOf .MODERATELY_SLOW) = 5/2 := by
    rw [distanceToTemplate_eq_sqrt ⟨3, 3, 2⟩ _ (25/4) (by decide)
      (by norm_num [Distribution.total, templateOf])]
    rw [show ((25/4 : ℚ) : ℝ) = (5/2 : ℝ) ^ 2 by norm_num]
    exact Real.sqrt_sq (by norm_num)
  have hS : distanceToTemplate ⟨3, 3, 2⟩ (templateOf .SLOW) = Real.sqrt (89/4) := by
    rw [distanceToTemplate_eq_sqrt ⟨3, 3, 2⟩ _ (89/4) (by decide)
      (by norm_num [Distribution.total, templateOf])]
    norm_num
  have h29lb : (3/2 : ℝ) ≤ Real.sqrt (29/4) := by
    calc (3/2 : ℝ) = Real.sqrt ((3/2) ^ 2) := (Real.sqrt_sq (by norm_num)).symm
    _ ≤ Real.sqrt (29/4) := Real.sqrt_le_sqrt (by norm_num)
  have h89lb : (3/2 : ℝ) ≤ Real.sqrt (89/4) := by
    calc (3/2 : ℝ) = Real.sqrt ((3/2) ^ 2) := (Real.sqrt_sq (by norm_num)).symm
    _ ≤ Real.sqrt (89/4) := Real.sqrt_le_sqrt (by norm_num)
  have hlt29 : (1/2 : ℝ) < Real.sqrt (29/4) := by linarith
  have hle89 : (1/2 : ℝ) ≤ Real.sqrt (89/4) := by linarith
  unfold predictPaceDiagnostic
  rw [hdist]
  rw [if_neg (by decide : ¬ (Distribution.mk 3 3 2).total = 0)]
  simp only [templateOrder, List.map_cons, List.map_nil]
  rw [hF, hMF, hN, hMS, hS]
  rw [pickBest_second _ _ _ _ _ _ _ _ _ _ hlt29 (by norm_num) (by norm_num)
    (not_lt.mpr hle89)]
  dsimp only
  rw [if_pos (show (2 : ℕ) ≤ [Real.sqrt (29/4), (1/2 : ℝ), 3/2, 5/2,
    Real.sqrt (89/4)].length by simp)]
  have hmin : listMinR [Real.sqrt (29/4), (1/2 : ℝ), 3/2, 5/2, Real.sqrt (89/4)] =
      1/2 := by
    simp only [listMinR, List.foldl_cons, List.foldl_nil]
    rw [min_eq_right (le_of_lt hlt29),
      min_eq_left (show (1/2 : ℝ) ≤ 3/2 by norm_num),
      min_eq_left (show (1/2 : ℝ) ≤ 5/2 by norm_num), min_eq_left hle89]
  rw [hmin]
  have hrm : removeFirst [Real.sqrt (29/4), (1/2 : ℝ), 3/2, 5/2, Real.sqrt (89/4)]
      (1/2) = [Real.sqrt (29/4), 3/2, 5/2, Real.sqrt (89/4)] := by
    simp only [removeFirst]
    rw [if_neg hlt29.ne']
    simp
  rw [hrm]
  have hmin2 : listMinR [Real.sqrt (29/4), (3/2 : ℝ), 5/2, Real.sqrt (89/4)] =
      3/2 := by
    simp only [listMinR, List.foldl_cons, List.foldl_nil]
    rw [min_eq_right h29lb, min_eq_left (show (3/2 : ℝ) ≤ 5/2 by norm_num),
      min_eq_left h89lb]
  rw [hmin2]
  rw [if_neg (by norm_num : ¬ (3/2 : ℝ) - 1/2 < 0.5)]
  have hle100 : (100 : ℝ) - (1/2) / 6 * 100 ≤ 100 := by norm_num
  have hge0 : (0 : ℝ) ≤ 100 - (1/2) / 6 * 100 := by norm_num
  rw [min_eq_right hle100, max_eq_right hge0]
  norm_num [DiagOut.mk.injEq]

/-- Evaluation of the EPP estimator on `fieldEight`: five contributions of
weight 1 give pressure index 5, in the `MODERATELY_FAST` band at
confidence 75. -/
theorem epp_fieldEight_eval :
    predictPaceByEpp fieldEight 8 = ⟨.MODERATELY_FAST, 5, 75⟩ := by
  have hsum : (fieldEight.map (eppContribution (((8 : ℕ) : ℚ) / 3))).sum = 5 := by
    norm_num [fieldEight, predFull, eppContribution, Option.getD]
  unfold predictPaceByEpp
  rw [if_neg (by decide : ¬ fieldEight = [])]
  simp only [hsum]
  norm_num

/-- C8: on `fieldEight` both component methods return the categorical result
`MODERATELY_FAST` (ordinal value 5/2), so under the claim's fusion — each
method's categorical result mapped to its 1.0–3.0 ordinal — the divergence
would be 0, the consensus boost would apply, and the fused band would be
`MODERATELY_FAST`.  The code instead feeds the EPP method's raw pressure
index (`pace_value = 5`) into the blend: divergence 5/2 (≥ 1, so the 0.8
discount fires), fused value 29/8, fused band `FAST`, confidence 200/3. -/
theorem c8_fusion_uses_pressure_index :
    (predictPaceDiagnostic fieldEight).paceType = .MODERATELY_FAST ∧
    (predictPaceByEpp fieldEight 8).paceType = .MODERATELY_FAST ∧
    paceTypeToValue .MODERATELY_FAST = 5/2 ∧
    (predictPaceByEpp fieldEight 8).paceValue = 5 ∧
    predictPaceHybridV1 fieldEight 8 "t" =
      ⟨.FAST, 200/3, 29/8, 11/20, 9/20, 5/2, "t"⟩ := by
  refine ⟨by rw [diag_fieldEight_eval], by rw [epp_fieldEight_eval],
    by norm_num [paceTypeToValue], by rw [epp_fieldEight_eval], ?_⟩
  unfold predictPaceHybridV1
  rw [if_neg (by decide : ¬ fieldEight = [])]
  rw [diag_fieldEight_eval, epp_fieldEight_eval]
  dsimp only
  have hval : ((paceTypeToValue .MODERATELY_FAST : ℚ) : ℝ) = 5/2 := by
    norm_num [paceTypeToValue]
  rw [hval]
  push_cast
  have habs : |(5/2 : ℝ) - 5| = 5/2 := by
    rw [abs_of_neg (by norm_num : (5/2 : ℝ) - 5 < 0)]
    norm_num
  rw [habs]
  have hpos : (0 : ℝ) < 275/3 + 75 := by norm_num
  simp only [if_pos hpos]
  rw [if_neg (by norm_num : ¬ (5/2 : ℝ) < 0.5),
    if_neg (by norm_num : ¬ (5/2 : ℝ) < 1)]
  have hw1 : (275/3 : ℝ) / (275/3 + 75) = 11/20 := by norm_num
  have hw2 : (75 : ℝ) / (275/3 + 75) = 9/20 := by norm_num
  rw [hw1, hw2]
  have hfused : (11/20 : ℝ) * (5/2) + 9/20 * 5 = 29/8 := by norm_num
  rw [hfused]
  have hpt : valueToPaceType (29/8) = .FAST := by
    unfold valueToPaceType
    rw [if_neg (by norm_num), if_neg (by norm_num), if_neg (by norm_num),
      if_neg (by norm_num)]
  rw [hpt]
  norm_num [FusionOut.mk.injEq]
